import Mathlib

/-!
Verification of the coin-pulse stats service (src/index.ts).

The service resolves a coin symbol to an address via a GraphQL subgraph,
locates its Uniswap V3 pool via the factory contract, reads slot0 and
liquidity from the pool, and computes price / liquidity / volume / market
cap.  The external reads (GraphQL requests and `publicClient.readContract`
calls) are modelled as an oracle record `ChainOracle`: each field maps the
exact query argument the source sends to an optional response, `none`
standing for a thrown/rejected call (which every `try`/`catch` block in the
source turns into a `null` return).  JavaScript numbers are modelled as
exact rationals `ℚ`; the concrete values the proofs evaluate at (powers of
two, small integers, zero) are exactly representable IEEE doubles, so the
rational model agrees with the double computation there.
-/

namespace CoinPulse

/-- WETH address on Base, as written at src/index.ts:208. -/
def WETH_ADDRESS : String := "0x4200000000000000000000000000000000000006"

/-- Uniswap V3 factory address, src/index.ts:38. -/
def UNISWAP_V3_FACTORY_ADDRESS : String := "0x1F98431c8aD98523631AE4a59f267346ea31F984"

/-- Zero-address literal the factory result is compared against, src/index.ts:233. -/
def ZERO_ADDRESS : String := "0x0000000000000000000000000000000000000000"

/-- Pool state read from slot0 and liquidity (src/index.ts:168-179):
sqrtPriceX96 as a number (uint160) and liquidity as a number (uint128). -/
structure PoolState where
  sqrtPriceX96 : ℚ
  liquidity : ℚ
  deriving DecidableEq, Repr

/-- Coin metadata from the subgraph coins query (src/index.ts:147-161):
totalSupply is the raw 18-decimals-scaled value `Number(coins[0].totalSupply)`,
holderCount the value `Number(coins[0].holderCount) || 0`. -/
structure CoinMeta where
  totalSupply : ℚ
  holderCount : ℚ
  deriving DecidableEq, Repr

/-- Result record returned by getCoinData on success (src/index.ts:190-196). -/
structure CoinStats where
  price : ℚ
  volume24h : ℚ
  liquidity : ℚ
  holderCount : ℚ
  marketCap : ℚ
  deriving DecidableEq, Repr

/-- Row of the symbol query response (src/index.ts:124-130). -/
structure SymbolRow where
  address : String
  totalSupply : ℚ
  deriving DecidableEq, Repr

/-- Pure numeric part of getCoinData, src/index.ts:160 and 182-196:
  totalSupply = Number(raw) / 1e18;
  price = (Number(sqrtPriceX96) ** 2 / 2 ** 192) * 1e18;
  liquidityEth = Number(formatEther(liquidity)) * price;
  volume24h = liquidityEth * 0.1;
  marketCap = price * totalSupply.
formatEther divides a wei amount by 1e18. -/
def computeStats (pool : PoolState) (meta : CoinMeta) : CoinStats :=
  let totalSupply := meta.totalSupply / 10 ^ 18
  let price := pool.sqrtPriceX96 ^ 2 / 2 ^ 192 * 10 ^ 18
  let liquidityEth := pool.liquidity / 10 ^ 18 * price
  let volume24h := liquidityEth * (1 / 10)
  let marketCap := price * totalSupply
  { price := price, volume24h := volume24h, liquidity := liquidityEth,
    holderCount := meta.holderCount, marketCap := marketCap }

/-- Pair-ordering step of getUniswapV3PoolAddress, src/index.ts:209-212:
  tokenAddress.toLowerCase() < WETH_ADDRESS.toLowerCase()
    ? [tokenAddress, WETH_ADDRESS] : [WETH_ADDRESS, tokenAddress]
generalised over the second address (the source instantiates b with
WETH_ADDRESS).  JavaScript string < is lexicographic on UTF-16 units, which
for these ASCII strings coincides with Lean's String order. -/
def canonicalOrder (a b : String) : String × String :=
  if a.toLower < b.toLower then (a, b) else (b, a)

/-- Arguments the source passes to the factory getPool call,
src/index.ts:230: args: [`0x${token0}`, `0x${token1}`, 3000]. -/
def getPoolCallArgs (tokenAddress : String) : String × String × Nat :=
  let p := canonicalOrder tokenAddress WETH_ADDRESS
  ("0x" ++ p.1, "0x" ++ p.2, 3000)

/-- External reads the source performs, keyed by the exact argument strings
it sends.  A `none` response models a thrown error or rejected promise. -/
structure ChainOracle where
  symbolLookup : String → Option (List SymbolRow)
  coinMeta : String → Option (List CoinMeta)
  getPool : String → String → Nat → Option String
  slot0 : String → Option ℚ
  liquidity : String → Option ℚ

/-- Argument of the symbol query, src/index.ts:134: symbol.toUpperCase(). -/
def symbolQueryArg (symbol : String) : String := symbol.toUpper

/-- Argument of the coin metadata query, src/index.ts:156:
coinAddress.toLowerCase(). -/
def coinMetaQueryArg (coinAddress : String) : String := coinAddress.toLower

/-- Symbol resolution, src/index.ts:123-141: queries the subgraph with
symbol.toUpperCase(), returns coins[0].address when the list is non-empty,
null otherwise, and null when the request throws. -/
def getCoinAddressBySymbol (o : ChainOracle) (symbol : String) : Option String :=
  match o.symbolLookup (symbolQueryArg symbol) with
  | none => none
  | some [] => none
  | some (row :: _) => some row.address

/-- Pool lookup, src/index.ts:204-240: orders the pair, calls the factory
getPool with the 0x-prepended ordered pair and fee 3000, maps the zero
address to null, passes any other address through, and returns null when
the call throws. -/
def getUniswapV3PoolAddress (o : ChainOracle) (tokenAddress : String) : Option String :=
  match o.getPool (getPoolCallArgs tokenAddress).1 (getPoolCallArgs tokenAddress).2.1
      (getPoolCallArgs tokenAddress).2.2 with
  | none => none
  | some poolAddress =>
      if poolAddress = ZERO_ADDRESS then none else some poolAddress

/-- Address string the slot0 and liquidity reads are issued at,
src/index.ts:170 and 175: address: `0x${poolAddress}`. -/
def poolReadAddress (poolAddress : String) : String := "0x" ++ poolAddress

/-- Data pipeline for one coin address, src/index.ts:144-201: queries coin
metadata with the lowercased address, fails (null) when the row is missing,
looks up the pool, fails when it is missing, reads slot0 and liquidity
(both must succeed), and computes the stats record. -/
def getCoinData (o : ChainOracle) (coinAddress : String) : Option CoinStats :=
  match o.coinMeta (coinMetaQueryArg coinAddress) with
  | none => none
  | some [] => none
  | some (meta :: _) =>
    match getUniswapV3PoolAddress o coinAddress with
    | none => none
    | some poolAddress =>
      match o.slot0 (poolReadAddress poolAddress),
            o.liquidity (poolReadAddress poolAddress) with
      | some s, some l =>
          some (computeStats { sqrtPriceX96 := s, liquidity := l } meta)
      | _, _ => none

/-- Outcome of the GET /image/:symbol route, src/index.ts:100-120: a missing
symbol resolution answers 404 "Coin not found", a null from getCoinData
answers 500 "Error fetching data", success renders the stats. -/
def imageRoute (o : ChainOracle) (symbol : String) : Except (String × Nat) CoinStats :=
  match getCoinAddressBySymbol o symbol with
  | none => Except.error ("Coin not found", 404)
  | some coinAddress =>
    match getCoinData o coinAddress with
    | none => Except.error ("Error fetching data", 500)
    | some d => Except.ok d

/-! Helper lemmas about ASCII case mapping, used for the case-insensitivity
claims: strings equal after toLower are equal after toUpper. -/

theorem char_toNat_ofNat {n : Nat} (h : n.isValidChar) : (Char.ofNat n).toNat = n := by
  rw [Char.ofNat, dif_pos h]
  rfl

theorem char_toNat_inj {a b : Char} (h : a.toNat = b.toNat) : a = b := by
  have h2 := congrArg Char.ofNat h
  rwa [Char.ofNat_toNat, Char.ofNat_toNat] at h2

theorem char_toUpper_of_toLower_eq {a b : Char} (h : a.toLower = b.toLower) :
    a.toUpper = b.toUpper := by
  simp only [Char.toLower, Char.toUpper] at h ⊢
  by_cases ha : a.toNat ≥ 65 ∧ a.toNat ≤ 90 <;>
    by_cases hb : b.toNat ≥ 65 ∧ b.toNat ≤ 90
  · rw [if_pos ha, if_pos hb] at h
    have hva : (a.toNat + 32).isValidChar := Or.inl (by omega)
    have hvb : (b.toNat + 32).isValidChar := Or.inl (by omega)
    have h2 := congrArg Char.toNat h
    rw [char_toNat_ofNat hva, char_toNat_ofNat hvb] at h2
    have hab : a = b := char_toNat_inj (by omega)
    rw [hab]
  · rw [if_pos ha, if_neg hb] at h
    have hva : (a.toNat + 32).isValidChar := Or.inl (by omega)
    have hbn : b.toNat = a.toNat + 32 := by
      have h2 := congrArg Char.toNat h
      rw [char_toNat_ofNat hva] at h2
      omega
    rw [if_neg (by omega), if_pos (by omega), hbn]
    have h3 : a.toNat + 32 - 32 = a.toNat := by omega
    rw [h3, Char.ofNat_toNat]
  · rw [if_neg ha, if_pos hb] at h
    have hvb : (b.toNat + 32).isValidChar := Or.inl (by omega)
    have han : a.toNat = b.toNat + 32 := by
      have h2 := congrArg Char.toNat h
      rw [char_toNat_ofNat hvb] at h2
      omega
    rw [if_pos (by omega), if_neg (by omega), han]
    have h3 : b.toNat + 32 - 32 = b.toNat := by omega
    rw [h3, Char.ofNat_toNat]
  · rw [if_neg ha, if_neg hb] at h
    rw [h]

theorem list_map_upper_of_lower {l₁ l₂ : List Char}
    (h : l₁.map Char.toLower = l₂.map Char.toLower) :
    l₁.map Char.toUpper = l₂.map Char.toUpper := by
  induction l₁ generalizing l₂ with
  | nil => cases l₂ with
    | nil => rfl
    | cons c t => simp at h
  | cons c t ih => cases l₂ with
    | nil => simp at h
    | cons d u =>
      simp only [List.map_cons, List.cons.injEq] at h ⊢
      exact ⟨char_toUpper_of_toLower_eq h.1, ih h.2⟩

theorem string_toUpper_of_toLower_eq {s t : String} (h : s.toLower = t.toLower) :
    s.toUpper = t.toUpper := by
  simp only [String.toLower, String.toUpper, String.map_eq, String.ext_iff] at h ⊢
  exact list_map_upper_of_lower h

/-! Claim theorems. -/

/-- Claim C1, counterexample: at the fixture sqrtPriceX96 = 2^96 and
totalSupply = 2 * 10^18 the code's stats record does not have price 1.0 and
marketCap 2.0; the price field is 10^18 and the marketCap field is
2 * 10^18, because the price formula multiplies the ratio by 1e18
(src/index.ts:183) and marketCap multiplies that scaled price by the
2-coin supply (src/index.ts:188). -/
theorem claim1_fixture_counterexample :
    (computeStats { sqrtPriceX96 := 2 ^ 96, liquidity := 0 }
        { totalSupply := 2 * 10 ^ 18, holderCount := 0 }).price ≠ 1 ∧
    (computeStats { sqrtPriceX96 := 2 ^ 96, liquidity := 0 }
        { totalSupply := 2 * 10 ^ 18, holderCount := 0 }).marketCap ≠ 2 := by
  constructor <;> norm_num [computeStats]

/-- Claim C1, amended: at the fixture sqrtPriceX96 = 2^96 and
totalSupply = 2 * 10^18, for every liquidity and holder count, the stats
computation yields price = 10^18 (the unit ratio scaled by 1e18) and
marketCap = 2 * 10^18 (that price times the 2-coin human-readable
supply). -/
theorem claim1_fixture (l h : ℚ) :
    (computeStats { sqrtPriceX96 := 2 ^ 96, liquidity := l }
        { totalSupply := 2 * 10 ^ 18, holderCount := h }).price = 10 ^ 18 ∧
    (computeStats { sqrtPriceX96 := 2 ^ 96, liquidity := l }
        { totalSupply := 2 * 10 ^ 18, holderCount := h }).marketCap = 2 * 10 ^ 18 := by
  constructor <;> norm_num [computeStats]

/-- Claim C5: for every pool state and coin metadata, the volume24h field
of the computed stats equals exactly one tenth of the liquidity field
(src/index.ts:187). -/
theorem claim5_volume_ratio (pool : PoolState) (meta : CoinMeta) :
    (computeStats pool meta).volume24h = (1 / 10) * (computeStats pool meta).liquidity := by
  simp only [computeStats]
  ring

/-- Claim C7: for every pool state and holder count, a coin metadata with
totalSupply = 0 yields marketCap = 0 (src/index.ts:160 and 188). -/
theorem claim7_zero_supply (pool : PoolState) (h : ℚ) :
    (computeStats pool { totalSupply := 0, holderCount := h }).marketCap = 0 := by
  simp [computeStats]

/-- Claim C9: the stats computation is pure and deterministic — it is a
function of the PoolState and CoinMeta arguments alone, so identical
inputs give identical CoinStats outputs (src/index.ts:182-196). -/
theorem claim9_deterministic (p₁ p₂ : PoolState) (m₁ m₂ : CoinMeta)
    (hp : p₁ = p₂) (hm : m₁ = m₂) :
    computeStats p₁ m₁ = computeStats p₂ m₂ := by
  rw [hp, hm]

/-- Claim C3: the canonical pair-ordering step (src/index.ts:209-212) is
symmetric and idempotent for any two addresses distinct as addresses
(distinct lowercase hex forms): ordering (A,B) and (B,A) give the same
pair, the pair is sorted by lowercase lexicographic comparison, re-ordering
the canonical pair leaves it unchanged, and the factory getPool arguments
(src/index.ts:230) are exactly the canonically ordered pair (each with the
source's 0x template applied) plus the fixed fee 3000. -/
theorem claim3_canonical_order (A B : String) (hAB : A.toLower ≠ B.toLower) :
    canonicalOrder A B = canonicalOrder B A ∧
    (canonicalOrder A B).1.toLower < (canonicalOrder A B).2.toLower ∧
    canonicalOrder (canonicalOrder A B).1 (canonicalOrder A B).2 = canonicalOrder A B ∧
    (∀ t, getPoolCallArgs t =
      ("0x" ++ (canonicalOrder t WETH_ADDRESS).1,
       "0x" ++ (canonicalOrder t WETH_ADDRESS).2, 3000)) := by
  have key : ∀ X Y : String, X.toLower < Y.toLower →
      canonicalOrder X Y = (X, Y) ∧ canonicalOrder Y X = (X, Y) := by
    intro X Y h
    constructor
    · simp only [canonicalOrder]
      rw [if_pos h]
    · simp only [canonicalOrder]
      rw [if_neg (asymm h)]
  rcases lt_trichotomy A.toLower B.toLower with h | h | h
  · obtain ⟨h1, h2⟩ := key A B h
    refine ⟨h1.trans h2.symm, ?_, ?_, fun t => rfl⟩
    · rw [h1]
      exact h
    · rw [h1]
      exact (key A B h).1
  · exact absurd h hAB
  · obtain ⟨h1, h2⟩ := key B A h
    refine ⟨h2.trans h1.symm, ?_, ?_, fun t => rfl⟩
    · rw [h2]
      exact h
    · rw [h2]
      exact h1

/-- Witness for claim C3 at two concrete distinct addresses. -/
theorem claim3_witness :
    canonicalOrder "0xAA" "0xbb" = canonicalOrder "0xbb" "0xAA" ∧
    (canonicalOrder "0xAA" "0xbb").1.toLower < (canonicalOrder "0xAA" "0xbb").2.toLower ∧
    canonicalOrder (canonicalOrder "0xAA" "0xbb").1 (canonicalOrder "0xAA" "0xbb").2 =
      canonicalOrder "0xAA" "0xbb" ∧
    (∀ t, getPoolCallArgs t =
      ("0x" ++ (canonicalOrder t WETH_ADDRESS).1,
       "0x" ++ (canonicalOrder t WETH_ADDRESS).2, 3000)) :=
  claim3_canonical_order "0xAA" "0xbb" (by
    simp only [String.toLower, String.map_eq, String.ext_iff, ne_eq]
    decide)

/-- Claim C4: whenever the factory lookup answers, the pool locator maps
the zero address to none, passes any other address through unchanged, and
never returns the zero address as a valid pool (src/index.ts:233-235). -/
theorem claim4_zero_address (o : ChainOracle) (t : String) :
    (o.getPool (getPoolCallArgs t).1 (getPoolCallArgs t).2.1 (getPoolCallArgs t).2.2 =
        some ZERO_ADDRESS → getUniswapV3PoolAddress o t = none) ∧
    (∀ a, o.getPool (getPoolCallArgs t).1 (getPoolCallArgs t).2.1 (getPoolCallArgs t).2.2 =
        some a → a ≠ ZERO_ADDRESS → getUniswapV3PoolAddress o t = some a) ∧
    (∀ r, getUniswapV3PoolAddress o t = some r → r ≠ ZERO_ADDRESS) := by
  have h1 : o.getPool (getPoolCallArgs t).1 (getPoolCallArgs t).2.1 (getPoolCallArgs t).2.2 =
      some ZERO_ADDRESS → getUniswapV3PoolAddress o t = none := fun h => by
    simp [getUniswapV3PoolAddress, h]
  have h2 : ∀ a, o.getPool (getPoolCallArgs t).1 (getPoolCallArgs t).2.1
      (getPoolCallArgs t).2.2 = some a → a ≠ ZERO_ADDRESS →
      getUniswapV3PoolAddress o t = some a := fun a ha hz => by
    simp [getUniswapV3PoolAddress, ha, hz]
  refine ⟨h1, h2, fun r hr => ?_⟩
  rcases hg : o.getPool (getPoolCallArgs t).1 (getPoolCallArgs t).2.1 (getPoolCallArgs t).2.2
      with _ | a
  · have hn : getUniswapV3PoolAddress o t = none := by
      simp [getUniswapV3PoolAddress, hg]
    rw [hn] at hr
    cases hr
  · by_cases hz : a = ZERO_ADDRESS
    · rw [h1 (hz ▸ hg)] at hr
      cases hr
    · rw [h2 a hg hz] at hr
      have har : a = r := Option.some.inj hr
      rw [← har]
      exact hz

/-- Oracle whose factory lookup always answers the zero address. -/
def zeroPoolOracle : ChainOracle where
  symbolLookup := fun _ => none
  coinMeta := fun _ => none
  getPool := fun _ _ _ => some ZERO_ADDRESS
  slot0 := fun _ => none
  liquidity := fun _ => none

/-- Witness for claim C4: with a factory answering the zero address, the
pool locator returns none. -/
theorem claim4_witness : getUniswapV3PoolAddress zeroPoolOracle "0xabc" = none :=
  (claim4_zero_address zeroPoolOracle "0xabc").1 rfl

/-- Claim C8: the symbol lookup queries with the symbol uppercased and the
metadata lookup queries with the address lowercased (src/index.ts:134,
156), so the symbol-lookup result and the metadata-query response depend
only on the case-insensitive values of the inputs. -/
theorem claim8_case_insensitive (o : ChainOracle) (s t a b : String)
    (hs : s.toLower = t.toLower) (ha : a.toLower = b.toLower) :
    symbolQueryArg s = s.toUpper ∧
    coinMetaQueryArg a = a.toLower ∧
    getCoinAddressBySymbol o s = getCoinAddressBySymbol o t ∧
    o.coinMeta (coinMetaQueryArg a) = o.coinMeta (coinMetaQueryArg b) := by
  refine ⟨rfl, rfl, ?_, ?_⟩
  · simp only [getCoinAddressBySymbol, symbolQueryArg,
      string_toUpper_of_toLower_eq hs]
  · simp only [coinMetaQueryArg, ha]

/-- Witness for claim C8 at concrete case-variant inputs. -/
theorem claim8_witness :
    symbolQueryArg "aBc" = "aBc".toUpper ∧
    coinMetaQueryArg "0xAb" = "0xAb".toLower ∧
    getCoinAddressBySymbol zeroPoolOracle "aBc" = getCoinAddressBySymbol zeroPoolOracle "ABC" ∧
    zeroPoolOracle.coinMeta (coinMetaQueryArg "0xAb") =
      zeroPoolOracle.coinMeta (coinMetaQueryArg "0xab") :=
  claim8_case_insensitive zeroPoolOracle "aBc" "ABC" "0xAb" "0xab"
    (by
      simp only [String.toLower, String.map_eq, String.ext_iff]
      decide)
    (by
      simp only [String.toLower, String.map_eq, String.ext_iff]
      decide)

/-- Oracle reproducing a successful symbol and metadata resolution whose
factory lookup answers the zero address. -/
def poolZeroOracle : ChainOracle where
  symbolLookup := fun _ => some [{ address := "0xtoken", totalSupply := 10 ^ 18 }]
  coinMeta := fun _ => some [{ totalSupply := 10 ^ 18, holderCount := 5 }]
  getPool := fun _ _ _ => some ZERO_ADDRESS
  slot0 := fun _ => some (2 ^ 96)
  liquidity := fun _ => some (10 ^ 18)

/-- Oracle identical to poolZeroOracle except that every chain read
throws. -/
def chainErrorOracle : ChainOracle where
  symbolLookup := fun _ => some [{ address := "0xtoken", totalSupply := 10 ^ 18 }]
  coinMeta := fun _ => some [{ totalSupply := 10 ^ 18, holderCount := 5 }]
  getPool := fun _ _ _ => none
  slot0 := fun _ => none
  liquidity := fun _ => none

/-- Claim C2, counterexample: when the coin address resolves but the
factory answers the zero address, the route's observable outcome (the 500
response "Error fetching data", via getCoinData returning null at
src/index.ts:164-165 and the handler at src/index.ts:107-110) is identical
to its outcome when the chain read itself fails, so the caller receives no
distinct PoolNotFound error kind distinguishable from a chain-read
error. -/
theorem claim2_counterexample :
    imageRoute poolZeroOracle "ABC" = Except.error ("Error fetching data", 500) ∧
    imageRoute chainErrorOracle "ABC" = Except.error ("Error fetching data", 500) ∧
    imageRoute poolZeroOracle "ABC" = imageRoute chainErrorOracle "ABC" :=
  ⟨rfl, rfl, rfl⟩

/-- Claim C2, amended: for every symbol whose coin address resolves and
whose metadata exists, a zero-address factory answer makes the pipeline
fail — getCoinData returns none and the route answers the 500 error
response, never a zero-valued stats record — but the failure is the same
undifferentiated null/500 that chain-read errors produce, not a distinct
PoolNotFound kind. -/
theorem claim2_pool_zero_fails (o : ChainOracle) (s : String) (row : SymbolRow)
    (rows : List SymbolRow) (m : CoinMeta) (ms : List CoinMeta)
    (hsym : o.symbolLookup (symbolQueryArg s) = some (row :: rows))
    (hmeta : o.coinMeta (coinMetaQueryArg row.address) = some (m :: ms))
    (hpool : o.getPool (getPoolCallArgs row.address).1 (getPoolCallArgs row.address).2.1
        (getPoolCallArgs row.address).2.2 = some ZERO_ADDRESS) :
    getCoinData o row.address = none ∧
    imageRoute o s = Except.error ("Error fetching data", 500) := by
  have hdata : getCoinData o row.address = none := by
    simp [getCoinData, hmeta, getUniswapV3PoolAddress, hpool]
  refine ⟨hdata, ?_⟩
  simp [imageRoute, getCoinAddressBySymbol, hsym, hdata]

/-- Witness for the amended claim C2 at a concrete oracle. -/
theorem claim2_witness :
    getCoinData poolZeroOracle "0xtoken" = none ∧
    imageRoute poolZeroOracle "ABC" = Except.error ("Error fetching data", 500) :=
  claim2_pool_zero_fails poolZeroOracle "ABC"
    { address := "0xtoken", totalSupply := 10 ^ 18 } []
    { totalSupply := 10 ^ 18, holderCount := 5 } [] rfl rfl rfl

/-- Claim C6: a zero liquidity read yields a stats record with liquidity 0
and volume24h 0 for every price read, and the computation succeeds — the
record is produced, zero liquidity is not an error (src/index.ts:184-187). -/
theorem claim6_zero_liquidity (o : ChainOracle) (addr pool : String)
    (m : CoinMeta) (ms : List CoinMeta) (s : ℚ)
    (hmeta : o.coinMeta (coinMetaQueryArg addr) = some (m :: ms))
    (hpool : getUniswapV3PoolAddress o addr = some pool)
    (hslot : o.slot0 (poolReadAddress pool) = some s)
    (hliq : o.liquidity (poolReadAddress pool) = some 0) :
    getCoinData o addr = some (computeStats { sqrtPriceX96 := s, liquidity := 0 } m) ∧
    (computeStats { sqrtPriceX96 := s, liquidity := 0 } m).liquidity = 0 ∧
    (computeStats { sqrtPriceX96 := s, liquidity := 0 } m).volume24h = 0 := by
  refine ⟨?_, ?_, ?_⟩
  · simp [getCoinData, hmeta, hpool, hslot, hliq]
  · simp [computeStats]
  · simp [computeStats]

/-- Oracle that resolves everything and reads a zero liquidity. -/
def zeroLiquidityOracle : ChainOracle where
  symbolLookup := fun _ => some [{ address := "0xtoken", totalSupply := 10 ^ 18 }]
  coinMeta := fun _ => some [{ totalSupply := 10 ^ 18, holderCount := 5 }]
  getPool := fun _ _ _ => some "0xpool"
  slot0 := fun _ => some (2 ^ 96)
  liquidity := fun _ => some 0

/-- Witness for claim C6 at a concrete oracle. -/
theorem claim6_witness :
    getCoinData zeroLiquidityOracle "0xtoken" =
      some (computeStats { sqrtPriceX96 := 2 ^ 96, liquidity := 0 }
        { totalSupply := 10 ^ 18, holderCount := 5 }) ∧
    (computeStats { sqrtPriceX96 := 2 ^ 96, liquidity := 0 }
        { totalSupply := 10 ^ 18, holderCount := 5 }).liquidity = 0 ∧
    (computeStats { sqrtPriceX96 := 2 ^ 96, liquidity := 0 }
        { totalSupply := 10 ^ 18, holderCount := 5 }).volume24h = 0 :=
  claim6_zero_liquidity zeroLiquidityOracle "0xtoken" "0xpool"
    { totalSupply := 10 ^ 18, holderCount := 5 } [] (2 ^ 96) rfl rfl rfl rfl

/-- Claim C10: the factory call arguments are formed by string-prepending
0x to each member of the ordered pair (src/index.ts:230) and the slot0 and
liquidity reads prepend 0x to the returned pool address (src/index.ts:170
and 175); hence for a token address already carrying the 0x marker both
factory arguments are doubly marked 0x0x strings (the WETH constant
carries it too), and so is the pool read address for a 0x-marked pool
address. -/
theorem claim10_double_0x (t r : String) (ht : t = "0x" ++ r) :
    ((getPoolCallArgs t).1 = "0x0x" ++ r ∨
      (getPoolCallArgs t).1 = "0x0x" ++ "4200000000000000000000000000000000000006") ∧
    ((getPoolCallArgs t).2.1 = "0x0x" ++ r ∨
      (getPoolCallArgs t).2.1 = "0x0x" ++ "4200000000000000000000000000000000000006") ∧
    (∀ p q, p = "0x" ++ q → poolReadAddress p = "0x0x" ++ q) := by
  have happ : ∀ u : String, "0x" ++ ("0x" ++ u) = "0x0x" ++ u := by
    intro u
    apply String.ext
    simp [String.data_append]
  have hw : WETH_ADDRESS = "0x" ++ "4200000000000000000000000000000000000006" := by
    decide
  by_cases hlt : t.toLower < WETH_ADDRESS.toLower
  · have h1 : (getPoolCallArgs t).1 = "0x" ++ t := by
      simp only [getPoolCallArgs, canonicalOrder, if_pos hlt]
    have h2 : (getPoolCallArgs t).2.1 = "0x" ++ WETH_ADDRESS := by
      simp only [getPoolCallArgs, canonicalOrder, if_pos hlt]
    refine ⟨Or.inl ?_, Or.inr ?_, fun p q hp => ?_⟩
    · rw [h1, ht, happ]
    · rw [h2, hw, happ]
    · rw [poolReadAddress, hp, happ]
  · have h1 : (getPoolCallArgs t).1 = "0x" ++ WETH_ADDRESS := by
      simp only [getPoolCallArgs, canonicalOrder, if_neg hlt]
    have h2 : (getPoolCallArgs t).2.1 = "0x" ++ t := by
      simp only [getPoolCallArgs, canonicalOrder, if_neg hlt]
    refine ⟨Or.inr ?_, Or.inl ?_, fun p q hp => ?_⟩
    · rw [h1, hw, happ]
    · rw [h2, ht, happ]
    · rw [poolReadAddress, hp, happ]

/-- Witness for claim C10 at a concrete 0x-marked token address. -/
theorem claim10_witness :
    ((getPoolCallArgs "0xdead").1 = "0x0x" ++ "dead" ∨
      (getPoolCallArgs "0xdead").1 = "0x0x" ++ "4200000000000000000000000000000000000006") ∧
    ((getPoolCallArgs "0xdead").2.1 = "0x0x" ++ "dead" ∨
      (getPoolCallArgs "0xdead").2.1 = "0x0x" ++ "4200000000000000000000000000000000000006") ∧
    (∀ p q, p = "0x" ++ q → poolReadAddress p = "0x0x" ++ q) :=
  claim10_double_0x "0xdead" "dead" (by decide)

/-- Witness for claim C9 at a concrete input. -/
theorem claim9_witness :
    computeStats { sqrtPriceX96 := 3, liquidity := 7 }
        { totalSupply := 11, holderCount := 2 } =
      computeStats { sqrtPriceX96 := 3, liquidity := 7 }
        { totalSupply := 11, holderCount := 2 } :=
  claim9_deterministic _ _ _ _ rfl rfl

end CoinPulse
